import Mathlib

set_option linter.unusedSectionVars false

/-!
Shallow embedding of the `granges` interval-algebra library (a Go port of
Guava's `Range`).  The embedding follows the Go sources file by file:

* `bound.go`   : `BoundType` (an `int`-based enum: `Unbounded = -1`,
                 `OPEN = 0`, `CLOSED = 1`).
* `cut.go`     : the `Cut` structure (a cut type plus an endpoint, where the
                 endpoint of an unbounded cut is the Go zero value, modelled
                 with `default`), with `IsLessThan`, `Compare`, `Equal` and the
                 two `Describe…` printers.
* `errors.go`  : the three sentinel errors; errors produced with `fmt.Errorf`
                 are modelled by the `errorf` constructor carrying the
                 formatted message.
* `ranges.go`  : the `Range` structure (two cuts plus an `invalid` flag,
                 which is `false` by default as in Go struct literals),
                 `create`, the queries and the set-algebra operations.
* constructors : `Open`, `Closed`, `ClosedOpen`, `OpenClosed`, `New`,
                 `LessThan`, `AtMost`, `GreaterThan`, `AtLeast`, `UpTo`,
                 `DownTo` and the `…E` error-reporting variants.

The generic parameter `C` (Go constraint `Comparable`, a strict total order
with `<`, `<=`, `>`, `>=`, `==`) is modelled by `[LinearOrder C]`; Go's zero
value is `[Inhabited C]`/`default`, and `fmt`'s `%v` is `[ToString C]`.
-/

namespace GRanges

/-- `bound.go`: `type BoundType int` with `Unbounded = -1`, `OPEN = 0`,
`CLOSED = 1`. -/
abbrev BoundType := Int

def Unbounded : BoundType := -1

def OPEN : BoundType := 0

def CLOSED : BoundType := 1

/-- `cut.go`: the four cut variants (`BelowAll`, `AboveAll`, `BelowValue`,
`AboveValue`). -/
inductive CutType where
  | belowAll
  | aboveAll
  | belowValue
  | aboveValue
deriving DecidableEq

/-- `cut.go`: a cut is a variant tag plus an endpoint; for `BelowAll` and
`AboveAll` the Go struct keeps the zero value of `C` in `endpoint`. -/
structure Cut (C : Type) where
  cutType : CutType
  endpoint : C
deriving DecidableEq

variable {C : Type} [LinearOrder C] [Inhabited C] [ToString C]

def NewBelowAll : Cut C := ⟨CutType.belowAll, default⟩

def NewAboveAll : Cut C := ⟨CutType.aboveAll, default⟩

def NewBelowValue (value : C) : Cut C := ⟨CutType.belowValue, value⟩

def NewAboveValue (value : C) : Cut C := ⟨CutType.aboveValue, value⟩

/-- `cut.go` `IsLessThan`. -/
def Cut.IsLessThan (c : Cut C) (value : C) : Bool :=
  match c.cutType with
  | CutType.belowAll => true
  | CutType.aboveAll => false
  | CutType.belowValue => decide (c.endpoint ≤ value)
  | CutType.aboveValue => decide (c.endpoint < value)

/-- `cut.go` `DescribeAsLowerBound` (the `default` arm of the Go switch
covers `AboveAll`). -/
def Cut.DescribeAsLowerBound (c : Cut C) : String :=
  match c.cutType with
  | CutType.belowAll => "(-∞"
  | CutType.belowValue => "[" ++ toString c.endpoint
  | CutType.aboveValue => "(" ++ toString c.endpoint
  | CutType.aboveAll => ""

/-- `cut.go` `DescribeAsUpperBound` (the `default` arm of the Go switch
covers `BelowAll`). -/
def Cut.DescribeAsUpperBound (c : Cut C) : String :=
  match c.cutType with
  | CutType.aboveAll => "+∞)"
  | CutType.belowValue => toString c.endpoint ++ ")"
  | CutType.aboveValue => toString c.endpoint ++ "]"
  | CutType.belowAll => ""

/-- `cut.go` `Compare`: the Go three-way comparison.  The Go early-return
chain on the two cut types is transcribed as a case split (`BelowAll` is
minimal, `AboveAll` maximal); the remaining arm is the Go tail comparing
endpoints first and breaking ties `BelowValue < AboveValue`. -/
def Cut.Compare (c other : Cut C) : Int :=
  match c.cutType, other.cutType with
  | CutType.belowAll, CutType.belowAll => 0
  | CutType.belowAll, _ => -1
  | CutType.aboveAll, CutType.aboveAll => 0
  | CutType.aboveAll, _ => 1
  | _, CutType.belowAll => 1
  | _, CutType.aboveAll => -1
  | ta, tb =>
    if c.endpoint < other.endpoint then -1
    else if c.endpoint > other.endpoint then 1
    else if ta = CutType.belowValue ∧ tb = CutType.aboveValue then -1
    else if ta = CutType.aboveValue ∧ tb = CutType.belowValue then 1
    else 0

/-- `cut.go` `Equal`. -/
def Cut.Equal (c other : Cut C) : Bool :=
  decide (c.Compare other = 0)

/-- `errors.go` sentinels plus the dynamic errors built with `fmt.Errorf`
(modelled by `errorf` carrying the formatted message). -/
inductive GoErr where
  | errRangeSideUnbounded
  | errUnboundedCut
  | errWrongBoundType
  | errorf (msg : String)
deriving DecidableEq

/-- `ranges.go`: a range is a pair of cuts plus an `invalid` flag; Go struct
literals leave `invalid` at its zero value `false`. -/
structure Range (C : Type) where
  lowerBound : Cut C
  upperBound : Cut C
  invalid : Bool := false
deriving DecidableEq

/-- `ranges.go` `Invalid`: the Go struct literal `Range[C]{invalid: true}`
leaves both cuts at their zero value, which is a `BelowAll` cut. -/
def Invalid : Range C :=
  { lowerBound := NewBelowAll, upperBound := NewBelowAll, invalid := true }

/-- `ranges.go` `String`: `fmt.Sprintf("%s..%s", lowerStr, upperStr)`. -/
def Range.String (r : Range C) : String :=
  r.lowerBound.DescribeAsLowerBound ++ ".." ++ r.upperBound.DescribeAsUpperBound

/-- `ranges.go` `create`: validation of the two cuts. -/
def create (lowerBound upperBound : Cut C) : Range C × Option GoErr :=
  if lowerBound.Compare upperBound > 0 ∨ lowerBound.cutType = CutType.aboveAll ∨
      upperBound.cutType = CutType.belowAll then
    (Invalid,
      some (GoErr.errorf ("invalid range: " ++ lowerBound.DescribeAsLowerBound ++ ".." ++
        upperBound.DescribeAsUpperBound)))
  else
    ({ lowerBound := lowerBound, upperBound := upperBound }, none)

/-- `ranges.go` `IsInvalid`. -/
def Range.IsInvalid (r : Range C) : Bool := r.invalid

/-- `ranges.go` `HasLowerBound`. -/
def Range.HasLowerBound (r : Range C) : Bool :=
  decide (r.lowerBound.cutType ≠ CutType.belowAll)

/-- `ranges.go` `HasUpperBound`. -/
def Range.HasUpperBound (r : Range C) : Bool :=
  decide (r.upperBound.cutType ≠ CutType.aboveAll)

/-- `ranges.go` `IsEmpty`. -/
def Range.IsEmpty (r : Range C) : Bool :=
  decide (r.lowerBound.Compare r.upperBound = 0)

/-- `ranges.go` `Contains`. -/
def Range.Contains (r : Range C) (value : C) : Bool :=
  r.lowerBound.IsLessThan value && !(r.upperBound.IsLessThan value)

/-- `ranges.go` `Encloses`. -/
def Range.Encloses (r other : Range C) : Bool :=
  decide (r.lowerBound.Compare other.lowerBound ≤ 0) &&
    decide (r.upperBound.Compare other.upperBound ≥ 0)

/-- `ranges.go` `IsConnected`. -/
def Range.IsConnected (r other : Range C) : Bool :=
  decide (r.lowerBound.Compare other.upperBound ≤ 0) &&
    decide (other.lowerBound.Compare r.upperBound ≤ 0)

/-- `ranges.go` `Equal`. -/
def Range.Equal (r other : Range C) : Bool :=
  decide (r.lowerBound.Compare other.lowerBound = 0) &&
    decide (r.upperBound.Compare other.upperBound = 0)

/-- `ranges.go` `IntersectionE`. -/
def Range.IntersectionE (r connectedRange : Range C) : Range C × Option GoErr :=
  let lowerCmp := r.lowerBound.Compare connectedRange.lowerBound
  let upperCmp := r.upperBound.Compare connectedRange.upperBound
  if lowerCmp ≥ 0 ∧ upperCmp ≤ 0 then
    (r, none)
  else if lowerCmp ≤ 0 ∧ upperCmp ≥ 0 then
    (connectedRange, none)
  else
    let newLower := if lowerCmp ≥ 0 then r.lowerBound else connectedRange.lowerBound
    let newUpper := if upperCmp ≤ 0 then r.upperBound else connectedRange.upperBound
    if newLower.Compare newUpper > 0 then
      (Invalid,
        some (GoErr.errorf ("intersection is undefined for disconnected ranges " ++
          r.String ++ " and " ++ connectedRange.String)))
    else create newLower newUpper

/-- `ranges.go` `Intersection` (panic-free variant). -/
def Range.Intersection (r connectedRange : Range C) : Range C :=
  (r.IntersectionE connectedRange).1

/-- `ranges.go` `GapE`. -/
def Range.GapE (r other : Range C) : Range C × Option GoErr :=
  if r.lowerBound.Compare other.upperBound < 0 ∧
      other.lowerBound.Compare r.upperBound < 0 then
    (Invalid,
      some (GoErr.errorf ("ranges have a nonempty intersection: " ++ r.String ++
        ", " ++ other.String)))
  else
    let isThisFirst := r.lowerBound.Compare other.lowerBound < 0
    let first := if isThisFirst then r else other
    let second := if isThisFirst then other else r
    create first.upperBound second.lowerBound

/-- `ranges.go` `Gap` (panic-free variant). -/
def Range.Gap (r other : Range C) : Range C :=
  (r.GapE other).1

/-- `ranges.go` `SpanE`. -/
def Range.SpanE (r other : Range C) : Range C × Option GoErr :=
  let lowerCmp := r.lowerBound.Compare other.lowerBound
  let upperCmp := r.upperBound.Compare other.upperBound
  if lowerCmp ≤ 0 ∧ upperCmp ≥ 0 then
    (r, none)
  else if lowerCmp ≥ 0 ∧ upperCmp ≤ 0 then
    (other, none)
  else
    let newLower := if lowerCmp ≤ 0 then r.lowerBound else other.lowerBound
    let newUpper := if upperCmp ≥ 0 then r.upperBound else other.upperBound
    create newLower newUpper

/-- `ranges.go` `Span` (panic-free variant). -/
def Range.Span (r other : Range C) : Range C :=
  (r.SpanE other).1

/-- Constructors file, `OpenE`. -/
def OpenE (lower upper : C) : Range C × Option GoErr :=
  create (NewAboveValue lower) (NewBelowValue upper)

/-- Constructors file, `Open`. -/
def Open (lower upper : C) : Range C :=
  (OpenE lower upper).1

/-- Constructors file, `ClosedE`. -/
def ClosedE (lower upper : C) : Range C × Option GoErr :=
  create (NewBelowValue lower) (NewAboveValue upper)

/-- Constructors file, `Closed`. -/
def Closed (lower upper : C) : Range C :=
  (ClosedE lower upper).1

/-- Constructors file, `ClosedOpenE`. -/
def ClosedOpenE (lower upper : C) : Range C × Option GoErr :=
  create (NewBelowValue lower) (NewBelowValue upper)

/-- Constructors file, `ClosedOpen`. -/
def ClosedOpen (lower upper : C) : Range C :=
  (ClosedOpenE lower upper).1

/-- Constructors file, `OpenClosedE`. -/
def OpenClosedE (lower upper : C) : Range C × Option GoErr :=
  create (NewAboveValue lower) (NewAboveValue upper)

/-- Constructors file, `OpenClosed`. -/
def OpenClosed (lower upper : C) : Range C :=
  (OpenClosedE lower upper).1

/-- Constructors file, `NewE`: an `OPEN` bound maps to the strict cut, any
other bound type takes the `else` branch. -/
def NewE (lower : C) (lowerType : BoundType) (upper : C) (upperType : BoundType) :
    Range C × Option GoErr :=
  let lowerBound := if lowerType = OPEN then NewAboveValue lower else NewBelowValue lower
  let upperBound := if upperType = OPEN then NewBelowValue upper else NewAboveValue upper
  create lowerBound upperBound

/-- Constructors file, `New`. -/
def New (lower : C) (lowerType : BoundType) (upper : C) (upperType : BoundType) :
    Range C :=
  (NewE lower lowerType upper upperType).1

/-- Constructors file, `LessThan` (built directly, not through `create`). -/
def LessThan (upper : C) : Range C :=
  { lowerBound := NewBelowAll, upperBound := NewBelowValue upper }

/-- Constructors file, `AtMost`. -/
def AtMost (upper : C) : Range C :=
  { lowerBound := NewBelowAll, upperBound := NewAboveValue upper }

/-- Constructors file, `GreaterThan`. -/
def GreaterThan (lower : C) : Range C :=
  { lowerBound := NewAboveValue lower, upperBound := NewAboveAll }

/-- Constructors file, `AtLeast`. -/
def AtLeast (lower : C) : Range C :=
  { lowerBound := NewBelowValue lower, upperBound := NewAboveAll }

/-- Constructors file, `All`. -/
def All : Range C :=
  { lowerBound := NewBelowAll, upperBound := NewAboveAll }

/-- Constructors file, `UpTo` (the Go `switch` on the bound type, whose
`default` arm reports `ErrWrongBoundType`). -/
def UpTo (endpoint : C) (boundType : BoundType) : Range C × Option GoErr :=
  if boundType = OPEN then (LessThan endpoint, none)
  else if boundType = CLOSED then (AtMost endpoint, none)
  else (Invalid, some GoErr.errWrongBoundType)

/-- Constructors file, `DownTo`. -/
def DownTo (endpoint : C) (boundType : BoundType) : Range C × Option GoErr :=
  if boundType = OPEN then (GreaterThan endpoint, none)
  else if boundType = CLOSED then (AtLeast endpoint, none)
  else (Invalid, some GoErr.errWrongBoundType)

/-- The validity invariant of a `Range` (spec section 3): the lower cut is at
or below the upper cut, the lower cut is never `AboveAll`, the upper cut never
`BelowAll`, and the `invalid` sentinel flag is unset.  This is exactly what
`create` enforces and what every successful constructor establishes. -/
abbrev Range.valid (r : Range C) : Prop :=
  r.lowerBound.Compare r.upperBound ≤ 0 ∧
    r.lowerBound.cutType ≠ CutType.aboveAll ∧
    r.upperBound.cutType ≠ CutType.belowAll ∧
    r.invalid = false

/-- The larger of two cuts in the `Cut.Compare` order (the cut the Go
`IntersectionE` picks as the new lower bound). -/
def maxCut (a b : Cut C) : Cut C :=
  if a.Compare b ≥ 0 then a else b

/-- The smaller of two cuts in the `Cut.Compare` order (the cut the Go
`IntersectionE` picks as the new upper bound). -/
def minCut (a b : Cut C) : Cut C :=
  if a.Compare b ≤ 0 then a else b

end GRanges

namespace GRanges

variable {C : Type} [LinearOrder C]

/-! ### Order theory of `Cut.Compare`

The master lemmas: `Compare` is reflexive-zero, antisymmetric under negation
and transitive, which makes `fun a b => a.Compare b ≤ 0` a linear preorder on
cuts.  Everything else about the range algebra reduces to these. -/

theorem Cut.compare_self (a : Cut C) : a.Compare a = 0 := by
  rcases a with ⟨t, v⟩
  cases t <;> simp [Cut.Compare]

theorem Cut.compare_neg (a b : Cut C) : b.Compare a = -(a.Compare b) := by
  rcases a with ⟨ta, va⟩; rcases b with ⟨tb, vb⟩
  cases ta <;> cases tb <;> simp only [Cut.Compare, gt_iff_lt] <;>
    try omega
  all_goals
    rcases lt_trichotomy va vb with h | h | h
    · simp [h, lt_asymm h]
    · subst h; simp
    · simp [h, lt_asymm h]

theorem Cut.compare_le_trans {a b c : Cut C} (hab : a.Compare b ≤ 0)
    (hbc : b.Compare c ≤ 0) : a.Compare c ≤ 0 := by
  rcases a with ⟨ta, va⟩; rcases b with ⟨tb, vb⟩; rcases c with ⟨tc, vc⟩
  cases ta <;> cases tb <;> cases tc <;>
    simp only [Cut.Compare, gt_iff_lt] at hab hbc ⊢ <;> try omega
  all_goals
    rcases lt_trichotomy va vb with h1 | h1 | h1 <;>
      rcases lt_trichotomy vb vc with h2 | h2 | h2 <;>
        first
          | simp [h1, h2, lt_asymm, lt_irrefl, lt_trans h1 h2] at hab hbc ⊢
          | (subst h1; subst h2; simp_all)
          | (subst h1; simp_all)
          | (subst h2; simp_all)
          | simp_all [lt_asymm, lt_irrefl]

theorem Cut.compare_zero_symm {a b : Cut C} (h : a.Compare b = 0) :
    b.Compare a = 0 := by
  have := Cut.compare_neg a b; omega

theorem Cut.compare_le_total (a b : Cut C) :
    a.Compare b ≤ 0 ∨ b.Compare a ≤ 0 := by
  have := Cut.compare_neg a b; omega

theorem Cut.compare_lt_of_lt_of_le {a b c : Cut C} (hab : a.Compare b < 0)
    (hbc : b.Compare c ≤ 0) : a.Compare c < 0 := by
  have hle : a.Compare c ≤ 0 := Cut.compare_le_trans (le_of_lt hab) hbc
  rcases lt_or_eq_of_le hle with h | h
  · exact h
  · exfalso
    have hca : c.Compare a = 0 := Cut.compare_zero_symm h
    have : b.Compare a ≤ 0 := Cut.compare_le_trans hbc (le_of_eq hca)
    have := Cut.compare_neg a b
    omega

theorem Cut.compare_lt_of_le_of_lt {a b c : Cut C} (hab : a.Compare b ≤ 0)
    (hbc : b.Compare c < 0) : a.Compare c < 0 := by
  have hle : a.Compare c ≤ 0 := Cut.compare_le_trans hab (le_of_lt hbc)
  rcases lt_or_eq_of_le hle with h | h
  · exact h
  · exfalso
    have hca : c.Compare a = 0 := Cut.compare_zero_symm h
    have : c.Compare b ≤ 0 := Cut.compare_le_trans (le_of_eq hca) hab
    have := Cut.compare_neg b c
    omega

theorem Range.equal_self (r : Range C) : r.Equal r = true := by
  simp [Range.Equal, Cut.compare_self]

theorem minCut_le_left (a b : Cut C) : (minCut a b).Compare a ≤ 0 := by
  unfold minCut; split_ifs with h
  · simp [Cut.compare_self]
  · have := Cut.compare_neg a b; omega

theorem minCut_le_right (a b : Cut C) : (minCut a b).Compare b ≤ 0 := by
  unfold minCut; split_ifs with h
  · exact h
  · simp [Cut.compare_self]

theorem maxCut_ge_left (a b : Cut C) : a.Compare (maxCut a b) ≤ 0 := by
  unfold maxCut; split_ifs with h
  · simp [Cut.compare_self]
  · omega

theorem maxCut_ge_right (a b : Cut C) : b.Compare (maxCut a b) ≤ 0 := by
  unfold maxCut; split_ifs with h
  · have := Cut.compare_neg a b; omega
  · simp [Cut.compare_self]

theorem le_minCut {c a b : Cut C} (h1 : c.Compare a ≤ 0) (h2 : c.Compare b ≤ 0) :
    c.Compare (minCut a b) ≤ 0 := by
  unfold minCut; split_ifs <;> assumption

theorem maxCut_le {a b c : Cut C} (h1 : a.Compare c ≤ 0) (h2 : b.Compare c ≤ 0) :
    (maxCut a b).Compare c ≤ 0 := by
  unfold maxCut; split_ifs <;> assumption

theorem spanE_char [Inhabited C] [ToString C] (r s : Range C)
    (hr : r.valid) (hs : s.valid) :
    (r.SpanE s).2 = none ∧ (r.SpanE s).1.valid ∧
    (r.SpanE s).1.lowerBound.Compare (minCut r.lowerBound s.lowerBound) = 0 ∧
    (r.SpanE s).1.upperBound.Compare (maxCut r.upperBound s.upperBound) = 0 := by
  obtain ⟨hr1, hr2, hr3, hr4⟩ := hr
  obtain ⟨hs1, hs2, hs3, hs4⟩ := hs
  have hnegl := Cut.compare_neg r.lowerBound s.lowerBound
  have hnegu := Cut.compare_neg r.upperBound s.upperBound
  simp only [Range.SpanE]
  by_cases h1 : r.lowerBound.Compare s.lowerBound ≤ 0 ∧
      r.upperBound.Compare s.upperBound ≥ 0
  · rw [if_pos h1]
    refine ⟨rfl, ⟨hr1, hr2, hr3, hr4⟩, ?_, ?_⟩
    · unfold minCut; rw [if_pos h1.1]; exact Cut.compare_self _
    · unfold maxCut; rw [if_pos h1.2]; exact Cut.compare_self _
  rw [if_neg h1]
  by_cases h2 : r.lowerBound.Compare s.lowerBound ≥ 0 ∧
      r.upperBound.Compare s.upperBound ≤ 0
  · rw [if_pos h2]
    dsimp only
    refine ⟨rfl, ⟨hs1, hs2, hs3, hs4⟩, ?_, ?_⟩
    · unfold minCut; split_ifs with hm
      · exact Cut.compare_zero_symm (by omega)
      · exact Cut.compare_self _
    · unfold maxCut; split_ifs with hm
      · exact Cut.compare_zero_symm (by omega)
      · exact Cut.compare_self _
  rw [if_neg h2]
  by_cases hl : r.lowerBound.Compare s.lowerBound ≤ 0
  · rw [if_pos hl]
    have hu : ¬(r.upperBound.Compare s.upperBound ≥ 0) := fun hu => h1 ⟨hl, hu⟩
    rw [if_neg hu]
    have hle : r.lowerBound.Compare s.upperBound ≤ 0 :=
      Cut.compare_le_trans hl hs1
    have hcond : ¬(r.lowerBound.Compare s.upperBound > 0 ∨
        r.lowerBound.cutType = CutType.aboveAll ∨
        s.upperBound.cutType = CutType.belowAll) := by
      push_neg; exact ⟨by omega, hr2, hs3⟩
    unfold create; rw [if_neg hcond]
    refine ⟨rfl, ⟨hle, hr2, hs3, rfl⟩, ?_, ?_⟩
    · unfold minCut; rw [if_pos hl]; exact Cut.compare_self _
    · unfold maxCut; rw [if_neg (by omega)]; exact Cut.compare_self _
  · rw [if_neg hl]
    have hu : r.upperBound.Compare s.upperBound ≥ 0 := by
      rcases le_or_lt 0 (r.upperBound.Compare s.upperBound) with h | h
      · exact h
      · exact absurd ⟨by omega, by omega⟩ h1
    rw [if_pos hu]
    have hle : s.lowerBound.Compare r.upperBound ≤ 0 :=
      Cut.compare_le_trans (by omega) hr1
    have hcond : ¬(s.lowerBound.Compare r.upperBound > 0 ∨
        s.lowerBound.cutType = CutType.aboveAll ∨
        r.upperBound.cutType = CutType.belowAll) := by
      push_neg; exact ⟨by omega, hs2, hr3⟩
    unfold create; rw [if_neg hcond]
    refine ⟨rfl, ⟨hle, hs2, hr3, rfl⟩, ?_, ?_⟩
    · unfold minCut; rw [if_neg hl]; exact Cut.compare_self _
    · unfold maxCut; rw [if_pos hu]; exact Cut.compare_self _


/-! ### Claim theorems -/

/-- C6: `Cut.Compare` is a three-way total order (for a value type whose
comparison is a strict total order): `BelowAll` compares equal to `BelowAll`
and strictly below everything else; `AboveAll` compares equal to `AboveAll`
and strictly above everything else; value-bearing cuts compare by endpoint
first, and at equal endpoints `BelowValue v` is strictly below
`AboveValue v`; `Cut.Equal` holds exactly when `Compare` returns `0`; and the
relation `Compare · · ≤ 0` is transitive, antisymmetric (up to `Compare`
equality) and total. -/
theorem cut_compare_total_order :
    (∀ a b : Cut C, a.cutType = CutType.belowAll →
      ((a.Compare b = 0 ↔ b.cutType = CutType.belowAll) ∧
        (b.cutType ≠ CutType.belowAll → a.Compare b = -1))) ∧
    (∀ a b : Cut C, a.cutType = CutType.aboveAll →
      ((a.Compare b = 0 ↔ b.cutType = CutType.aboveAll) ∧
        (b.cutType ≠ CutType.aboveAll → a.Compare b = 1))) ∧
    (∀ a b : Cut C,
      (a.cutType = CutType.belowValue ∨ a.cutType = CutType.aboveValue) →
      (b.cutType = CutType.belowValue ∨ b.cutType = CutType.aboveValue) →
      ((a.endpoint < b.endpoint → a.Compare b = -1) ∧
        (b.endpoint < a.endpoint → a.Compare b = 1))) ∧
    (∀ v : C, (NewBelowValue v).Compare (NewAboveValue v) = -1) ∧
    (∀ a b : Cut C, (a.Equal b = true ↔ a.Compare b = 0)) ∧
    (∀ a b c : Cut C, a.Compare b ≤ 0 → b.Compare c ≤ 0 → a.Compare c ≤ 0) ∧
    (∀ a b : Cut C, a.Compare b ≤ 0 → b.Compare a ≤ 0 → a.Compare b = 0) ∧
    (∀ a b : Cut C, a.Compare b ≤ 0 ∨ b.Compare a ≤ 0) := by
  refine ⟨?_, ?_, ?_, ?_, ?_, ?_, ?_, ?_⟩
  · rintro ⟨ta, va⟩ ⟨tb, vb⟩ h
    simp only at h; subst h
    cases tb <;> simp [Cut.Compare]
  · rintro ⟨ta, va⟩ ⟨tb, vb⟩ h
    simp only at h; subst h
    cases tb <;> simp [Cut.Compare]
  · rintro ⟨ta, va⟩ ⟨tb, vb⟩ ha hb
    simp only at ha hb
    constructor
    · intro hlt
      rcases ha with h | h <;> rcases hb with h' | h' <;> subst h <;> subst h' <;>
        simp [Cut.Compare, hlt]
    · intro hlt
      rcases ha with h | h <;> rcases hb with h' | h' <;> subst h <;> subst h' <;>
        simp [Cut.Compare, hlt, lt_asymm hlt]
  · intro v
    simp [Cut.Compare, NewBelowValue, NewAboveValue]
  · intro a b
    simp [Cut.Equal]
  · exact fun a b c => Cut.compare_le_trans
  · intro a b h1 h2
    have := Cut.compare_neg a b; omega
  · exact Cut.compare_le_total

/-- C6 witness: the theorem applied at concrete integer cuts, discharging the
hypotheses of the transitivity and tie-break clauses. -/
theorem cut_compare_total_order_witness :
    (Cut.mk CutType.belowValue (1:Int)).Compare ⟨CutType.belowValue, 3⟩ ≤ 0 ∧
      (Cut.mk CutType.belowValue (1:Int)).Compare ⟨CutType.aboveValue, 2⟩ = -1 :=
  ⟨(cut_compare_total_order (C := Int)).2.2.2.2.2.1 ⟨CutType.belowValue, 1⟩
      ⟨CutType.belowValue, 2⟩ ⟨CutType.belowValue, 3⟩ (by decide) (by decide),
    ((cut_compare_total_order (C := Int)).2.2.1 ⟨CutType.belowValue, 1⟩
      ⟨CutType.aboveValue, 2⟩ (Or.inl rfl) (Or.inr rfl)).1 (by decide)⟩

/-- C5: `Encloses` is a partial order on valid ranges: reflexive,
antisymmetric up to `Range.Equal`, and transitive. -/
theorem encloses_order :
    (∀ r : Range C, r.valid → r.Encloses r = true) ∧
    (∀ r s : Range C, r.valid → s.valid →
      r.Encloses s = true → s.Encloses r = true → r.Equal s = true) ∧
    (∀ r s t : Range C, r.valid → s.valid → t.valid →
      r.Encloses s = true → s.Encloses t = true → r.Encloses t = true) := by
  refine ⟨?_, ?_, ?_⟩
  · intro r _
    simp [Range.Encloses, Cut.compare_self]
  · intro r s _ _ h1 h2
    simp only [Range.Encloses, Bool.and_eq_true, decide_eq_true_eq] at h1 h2
    have hl := Cut.compare_neg r.lowerBound s.lowerBound
    have hu := Cut.compare_neg r.upperBound s.upperBound
    simp only [Range.Equal, Bool.and_eq_true, decide_eq_true_eq]
    omega
  · intro r s t _ _ _ h1 h2
    simp only [Range.Encloses, Bool.and_eq_true, decide_eq_true_eq] at h1 h2 ⊢
    refine ⟨Cut.compare_le_trans h1.1 h2.1, ?_⟩
    have h1' := Cut.compare_neg r.upperBound s.upperBound
    have h2' := Cut.compare_neg s.upperBound t.upperBound
    have h3' := Cut.compare_neg r.upperBound t.upperBound
    have := Cut.compare_le_trans (a := t.upperBound) (b := s.upperBound)
      (c := r.upperBound) (by omega) (by omega)
    omega

/-- C5 witness: reflexivity, antisymmetry and transitivity of `Encloses`
applied at concrete integer ranges. -/
theorem encloses_order_witness :
    (Closed (1:Int) 5).Encloses (Closed 1 5) = true ∧
      (Closed (1:Int) 5).Equal (Closed 1 5) = true ∧
      (Closed (1:Int) 5).Encloses (Closed 3 4) = true :=
  ⟨(encloses_order (C := Int)).1 (Closed 1 5) (by decide),
    (encloses_order (C := Int)).2.1 (Closed 1 5) (Closed 1 5) (by decide)
      (by decide) (by decide) (by decide),
    (encloses_order (C := Int)).2.2 (Closed 1 5) (Closed 2 4) (Closed 3 4)
      (by decide) (by decide) (by decide) (by decide) (by decide)⟩

/-- C10: the invalid sentinel carries two zero-value cuts (both `BelowAll`),
so every query on it is total and harmless: `Contains` is always `false`,
`IsEmpty` is `true`, `HasLowerBound` is `false`, and `HasUpperBound` is
`true`. -/
theorem invalid_queries [Inhabited C] :
    ((Invalid : Range C).lowerBound = NewBelowAll ∧
      (Invalid : Range C).upperBound = NewBelowAll) ∧
    (∀ x : C, (Invalid : Range C).Contains x = false) ∧
    (Invalid : Range C).IsEmpty = true ∧
    (Invalid : Range C).HasLowerBound = false ∧
    (Invalid : Range C).HasUpperBound = true := by
  refine ⟨⟨rfl, rfl⟩, ?_, ?_, ?_, ?_⟩
  · intro x
    simp [Range.Contains, Invalid, NewBelowAll, Cut.IsLessThan]
  · simp [Range.IsEmpty, Invalid, NewBelowAll, Cut.compare_self]
  · simp [Range.HasLowerBound, Invalid, NewBelowAll]
  · simp [Range.HasUpperBound, Invalid, NewBelowAll]

/-- C8: the empty range `ClosedOpen(4,4)` has `IsEmpty = true`,
`Contains 4 = false` and renders as `"[4..4)"`; in general `String` renders
every valid range as the lower cut's bracket description, then `".."`, then
the upper cut's bracket description. -/
theorem closedOpen_empty_and_string :
    (ClosedOpen (4:Int) 4).IsEmpty = true ∧
    (ClosedOpen (4:Int) 4).Contains 4 = false ∧
    (ClosedOpen (4:Int) 4).String = "[4..4)" ∧
    ∀ {D : Type} [LinearOrder D] [Inhabited D] [ToString D] (r : Range D),
      r.valid →
      r.String =
        r.lowerBound.DescribeAsLowerBound ++ ".." ++
          r.upperBound.DescribeAsUpperBound := by
  refine ⟨by decide, by decide, by decide, ?_⟩
  intro D _ _ _ r _
  rfl

/-- C8 witness: the general rendering clause applied at a concrete valid
integer range. -/
theorem closedOpen_empty_and_string_witness :
    (Closed (1:Int) 3).String =
      (Closed (1:Int) 3).lowerBound.DescribeAsLowerBound ++ ".." ++
        (Closed (1:Int) 3).upperBound.DescribeAsUpperBound :=
  closedOpen_empty_and_string.2.2.2 (Closed 1 3) (by decide)

/-- C3: `create` fails (returning the invalid sentinel together with an
error) exactly when the lower cut compares above the upper cut, the lower cut
is `AboveAll`, or the upper cut is `BelowAll`; otherwise it returns, with no
error, a valid range wrapping exactly the two cuts.  In particular
`Open(3,3)` fails with a construction error.  (All embedded functions are
total, so no input can panic.) -/
theorem create_spec [Inhabited C] [ToString C] :
    (∀ l u : Cut C,
      ((create l u).2 ≠ none ↔
        (l.Compare u > 0 ∨ l.cutType = CutType.aboveAll ∨
          u.cutType = CutType.belowAll)) ∧
      ((create l u).2 ≠ none → (create l u).1 = Invalid) ∧
      ((create l u).2 = none →
        (create l u).1 = { lowerBound := l, upperBound := u, invalid := false } ∧
        (create l u).1.valid)) ∧
    (OpenE (3:Int) 3).2 ≠ none ∧ (OpenE (3:Int) 3).1 = Invalid := by
  refine ⟨?_, by decide, by decide⟩
  intro l u
  unfold create
  split_ifs with h
  · exact ⟨by simpa using h, fun _ => rfl, fun hnone => by simp at hnone⟩
  · push_neg at h
    exact ⟨by simp [h], fun hsome => absurd rfl hsome,
      fun _ => ⟨rfl, h.1, h.2.1, h.2.2, rfl⟩⟩

/-- C3 witness: `create` applied to a concrete ordered pair of cuts succeeds
and wraps exactly those cuts. -/
theorem create_spec_witness :
    (create (Cut.mk CutType.belowValue (1:Int)) ⟨CutType.aboveValue, 3⟩).1 =
      { lowerBound := ⟨CutType.belowValue, 1⟩,
        upperBound := ⟨CutType.aboveValue, 3⟩, invalid := false } :=
  (((create_spec (C := Int)).1 ⟨CutType.belowValue, 1⟩
    ⟨CutType.aboveValue, 3⟩).2.2 (by decide)).1

/-- C9: `NewE` treats every bound type other than `OPEN` as `CLOSED`, on
either side, and never reports `ErrWrongBoundType` — unlike `UpTo` and
`DownTo`, which report it for any bound type that is neither `OPEN` nor
`CLOSED`, such as `Unbounded`. -/
theorem newE_bound_types [Inhabited C] [ToString C] :
    (∀ (lower upper : C) (lowerType upperType : BoundType),
      lowerType ≠ OPEN →
      NewE lower lowerType upper upperType = NewE lower CLOSED upper upperType) ∧
    (∀ (lower upper : C) (lowerType upperType : BoundType),
      upperType ≠ OPEN →
      NewE lower lowerType upper upperType = NewE lower lowerType upper CLOSED) ∧
    (∀ (lower upper : C) (lowerType upperType : BoundType),
      (NewE lower lowerType upper upperType).2 ≠ some GoErr.errWrongBoundType) ∧
    (∀ endpoint : C, (UpTo endpoint Unbounded).2 = some GoErr.errWrongBoundType) ∧
    (∀ endpoint : C, (DownTo endpoint Unbounded).2 = some GoErr.errWrongBoundType) := by
  refine ⟨?_, ?_, ?_, ?_, ?_⟩
  · intro l u lt ut h
    simp [NewE, h, show CLOSED ≠ OPEN by decide]
  · intro l u lt ut h
    simp [NewE, h, show CLOSED ≠ OPEN by decide]
  · intro l u lt ut
    unfold NewE create
    split_ifs <;> dsimp only <;> split_ifs <;> simp
  · intro e
    simp [UpTo, show Unbounded ≠ OPEN by decide, show Unbounded ≠ CLOSED by decide]
  · intro e
    simp [DownTo, show Unbounded ≠ OPEN by decide, show Unbounded ≠ CLOSED by decide]

/-- C9 witness: an `Unbounded` lower bound type behaves exactly like
`CLOSED` at concrete integer inputs, and `UpTo` with `Unbounded` reports
`ErrWrongBoundType`. -/
theorem newE_bound_types_witness :
    NewE (1:Int) Unbounded 5 OPEN = NewE 1 CLOSED 5 OPEN ∧
      (UpTo (7:Int) Unbounded).2 = some GoErr.errWrongBoundType :=
  ⟨(newE_bound_types (C := Int)).1 1 5 Unbounded OPEN (by decide),
    (newE_bound_types (C := Int)).2.2.2.1 7⟩

/-- C1 (failing input): the gap operation is *not* commutative on the code
as written, although `GapE`'s own documentation says it is.  For the valid
ranges `r = [1..1)` and `s = [1..3]` the gap precondition holds (their
intersection would be empty), yet `r.GapE s` reports an error while
`s.GapE r` succeeds and returns `[1..1)`. -/
theorem gapE_asymmetric :
    ((ClosedOpen (1:Int) 1).GapE (Closed 1 3)).2 ≠ none ∧
    ((Closed (1:Int) 3).GapE (ClosedOpen 1 1)).2 = none ∧
    ((Closed (1:Int) 3).GapE (ClosedOpen 1 1)).1.Equal (ClosedOpen 1 1) = true ∧
    ¬((ClosedOpen (1:Int) 1).lowerBound.Compare (Closed (1:Int) 3).upperBound < 0 ∧
      (Closed (1:Int) 3).lowerBound.Compare (ClosedOpen (1:Int) 1).upperBound < 0) ∧
    (ClosedOpen (1:Int) 1).valid ∧ (Closed (1:Int) 3).valid := by
  exact ⟨by decide, by decide, by decide, by decide, by decide, by decide⟩


/-- C4: `SpanE` is the least upper bound in the enclosure order: for every
pair of valid ranges it succeeds with no error and returns a valid range that
encloses both arguments, and any valid range enclosing both arguments
encloses the span — whether or not the arguments are connected. -/
theorem spanE_least_upper_bound [Inhabited C] [ToString C] :
    ∀ r s : Range C, r.valid → s.valid →
      (r.SpanE s).2 = none ∧
      (r.SpanE s).1.valid ∧
      (r.SpanE s).1.Encloses r = true ∧
      (r.SpanE s).1.Encloses s = true ∧
      (∀ u : Range C, u.valid → u.Encloses r = true → u.Encloses s = true →
        u.Encloses (r.SpanE s).1 = true) := by
  intro r s hr hs
  obtain ⟨h0, hv, hlo, hup⟩ := spanE_char r s hr hs
  refine ⟨h0, hv, ?_, ?_, ?_⟩
  · simp only [Range.Encloses, Bool.and_eq_true, decide_eq_true_eq]
    refine ⟨Cut.compare_le_trans (le_of_eq hlo) (minCut_le_left _ _), ?_⟩
    have h1 : r.upperBound.Compare (r.SpanE s).1.upperBound ≤ 0 :=
      Cut.compare_le_trans (maxCut_ge_left _ _)
        (le_of_eq (Cut.compare_zero_symm hup))
    have h2 := Cut.compare_neg r.upperBound ((r.SpanE s).1.upperBound)
    omega
  · simp only [Range.Encloses, Bool.and_eq_true, decide_eq_true_eq]
    refine ⟨Cut.compare_le_trans (le_of_eq hlo) (minCut_le_right _ _), ?_⟩
    have h1 : s.upperBound.Compare (r.SpanE s).1.upperBound ≤ 0 :=
      Cut.compare_le_trans (maxCut_ge_right _ _)
        (le_of_eq (Cut.compare_zero_symm hup))
    have h2 := Cut.compare_neg s.upperBound ((r.SpanE s).1.upperBound)
    omega
  · intro u hu h1 h2
    simp only [Range.Encloses, Bool.and_eq_true, decide_eq_true_eq] at h1 h2 ⊢
    constructor
    · have hm : u.lowerBound.Compare (minCut r.lowerBound s.lowerBound) ≤ 0 :=
        le_minCut h1.1 h2.1
      exact Cut.compare_le_trans hm (le_of_eq (Cut.compare_zero_symm hlo))
    · have hru : r.upperBound.Compare u.upperBound ≤ 0 := by
        have := Cut.compare_neg u.upperBound r.upperBound; omega
      have hsu : s.upperBound.Compare u.upperBound ≤ 0 := by
        have := Cut.compare_neg u.upperBound s.upperBound; omega
      have ht : (r.SpanE s).1.upperBound.Compare u.upperBound ≤ 0 :=
        Cut.compare_le_trans (le_of_eq hup) (maxCut_le hru hsu)
      have := Cut.compare_neg ((r.SpanE s).1.upperBound) u.upperBound
      omega

/-- C2: for valid ranges, `IntersectionE` reports an error exactly when the
two ranges are not connected; when they are connected it succeeds with no
error and returns the maximal range enclosed by both — the range whose lower
cut is the larger of the two lower cuts and whose upper cut is the smaller of
the two upper cuts. -/
theorem intersectionE_spec [Inhabited C] [ToString C] :
    ∀ r s : Range C, r.valid → s.valid →
      (((r.IntersectionE s).2 ≠ none) ↔ r.IsConnected s = false) ∧
      (r.IsConnected s = true →
        (r.IntersectionE s).2 = none ∧
        (r.IntersectionE s).1.Equal
          { lowerBound := maxCut r.lowerBound s.lowerBound,
            upperBound := minCut r.upperBound s.upperBound } = true) := by
  intro r s hr hs
  obtain ⟨hr1, hr2, hr3, hr4⟩ := hr
  obtain ⟨hs1, hs2, hs3, hs4⟩ := hs
  have hnegl := Cut.compare_neg r.lowerBound s.lowerBound
  have hnegu := Cut.compare_neg r.upperBound s.upperBound
  simp only [Range.IntersectionE]
  by_cases h1 : r.lowerBound.Compare s.lowerBound ≥ 0 ∧
      r.upperBound.Compare s.upperBound ≤ 0
  · rw [if_pos h1]
    have hconn : r.IsConnected s = true := by
      simp only [Range.IsConnected, Bool.and_eq_true, decide_eq_true_eq]
      exact ⟨Cut.compare_le_trans hr1 h1.2,
        Cut.compare_le_trans (by omega) hr1⟩
    rw [hconn]
    refine ⟨by simp, fun _ => ⟨rfl, ?_⟩⟩
    simp only [Range.Equal, Bool.and_eq_true, decide_eq_true_eq]
    constructor
    · unfold maxCut; rw [if_pos h1.1]; exact Cut.compare_self _
    · unfold minCut; rw [if_pos h1.2]; exact Cut.compare_self _
  rw [if_neg h1]
  by_cases h2 : r.lowerBound.Compare s.lowerBound ≤ 0 ∧
      r.upperBound.Compare s.upperBound ≥ 0
  · rw [if_pos h2]
    have hconn : r.IsConnected s = true := by
      simp only [Range.IsConnected, Bool.and_eq_true, decide_eq_true_eq]
      exact ⟨Cut.compare_le_trans h2.1 hs1,
        Cut.compare_le_trans hs1 (by omega)⟩
    rw [hconn]
    refine ⟨by simp, fun _ => ⟨rfl, ?_⟩⟩
    dsimp only
    simp only [Range.Equal, Bool.and_eq_true, decide_eq_true_eq]
    constructor
    · unfold maxCut; split_ifs with hm
      · exact Cut.compare_zero_symm (by omega)
      · exact Cut.compare_self _
    · unfold minCut; split_ifs with hm
      · exact Cut.compare_zero_symm (by omega)
      · exact Cut.compare_self _
  rw [if_neg h2]
  by_cases hl : r.lowerBound.Compare s.lowerBound ≥ 0
  · rw [if_pos hl]
    have hu : ¬(r.upperBound.Compare s.upperBound ≤ 0) := fun hu => h1 ⟨hl, hu⟩
    rw [if_neg hu]
    by_cases herr : r.lowerBound.Compare s.upperBound > 0
    · rw [if_pos herr]
      have hconn : r.IsConnected s = false := by
        have hn : ¬(r.lowerBound.Compare s.upperBound ≤ 0) := by omega
        simp [Range.IsConnected, hn]
      rw [hconn]
      refine ⟨by simp, fun h => by simp at h⟩
    · rw [if_neg herr]
      have hconn : r.IsConnected s = true := by
        simp only [Range.IsConnected, Bool.and_eq_true, decide_eq_true_eq]
        exact ⟨by omega, Cut.compare_le_trans (by omega) hr1⟩
      rw [hconn]
      have hcond : ¬(r.lowerBound.Compare s.upperBound > 0 ∨
          r.lowerBound.cutType = CutType.aboveAll ∨
          s.upperBound.cutType = CutType.belowAll) := by
        push_neg; exact ⟨by omega, hr2, hs3⟩
      unfold create; rw [if_neg hcond]
      refine ⟨by simp, fun _ => ⟨rfl, ?_⟩⟩
      dsimp only
      simp only [Range.Equal, Bool.and_eq_true, decide_eq_true_eq]
      constructor
      · unfold maxCut; rw [if_pos hl]; exact Cut.compare_self _
      · unfold minCut; rw [if_neg hu]; exact Cut.compare_self _
  · rw [if_neg hl]
    have hu : r.upperBound.Compare s.upperBound ≤ 0 := by
      rcases le_or_lt (r.upperBound.Compare s.upperBound) 0 with h | h
      · exact h
      · exact absurd ⟨by omega, by omega⟩ h2
    rw [if_pos hu]
    by_cases herr : s.lowerBound.Compare r.upperBound > 0
    · rw [if_pos herr]
      have hconn : r.IsConnected s = false := by
        have hn : ¬(s.lowerBound.Compare r.upperBound ≤ 0) := by omega
        simp [Range.IsConnected, hn]
      rw [hconn]
      refine ⟨by simp, fun h => by simp at h⟩
    · rw [if_neg herr]
      have hconn : r.IsConnected s = true := by
        simp only [Range.IsConnected, Bool.and_eq_true, decide_eq_true_eq]
        exact ⟨Cut.compare_le_trans (by omega) hs1, by omega⟩
      rw [hconn]
      have hcond : ¬(s.lowerBound.Compare r.upperBound > 0 ∨
          s.lowerBound.cutType = CutType.aboveAll ∨
          r.upperBound.cutType = CutType.belowAll) := by
        push_neg; exact ⟨by omega, hs2, hr3⟩
      unfold create; rw [if_neg hcond]
      refine ⟨by simp, fun _ => ⟨rfl, ?_⟩⟩
      dsimp only
      simp only [Range.Equal, Bool.and_eq_true, decide_eq_true_eq]
      constructor
      · unfold maxCut; rw [if_neg hl]; exact Cut.compare_self _
      · unfold minCut; rw [if_pos hu]; exact Cut.compare_self _

/-- C4 witness: the span of two concrete disconnected integer ranges exists
and encloses the first argument. -/
theorem spanE_least_upper_bound_witness :
    ((Closed (1:Int) 3).SpanE (Open 5 7)).2 = none ∧
      ((Closed (1:Int) 3).SpanE (Open 5 7)).1.Encloses (Closed 1 3) = true :=
  ⟨(spanE_least_upper_bound (C := Int) (Closed 1 3) (Open 5 7) (by decide)
      (by decide)).1,
    (spanE_least_upper_bound (C := Int) (Closed 1 3) (Open 5 7) (by decide)
      (by decide)).2.2.1⟩

/-- C2 witness: the intersection of the concrete connected ranges `[1..5]`
and `(3..7)` exists and equals the max-lower/min-upper range. -/
theorem intersectionE_spec_witness :
    ((Closed (1:Int) 5).IntersectionE (Open 3 7)).2 = none ∧
      ((Closed (1:Int) 5).IntersectionE (Open 3 7)).1.Equal
        { lowerBound := maxCut (Closed (1:Int) 5).lowerBound
            (Open (3:Int) 7).lowerBound,
          upperBound := minCut (Closed (1:Int) 5).upperBound
            (Open (3:Int) 7).upperBound } = true :=
  (intersectionE_spec (C := Int) (Closed 1 5) (Open 3 7) (by decide)
    (by decide)).2 (by decide)

/-- C7: constructing a range through the generic `New` constructor and
through the named constructor of the same shape yields `Equal` ranges, and
the error-reporting variants agree exactly (same range, same error). -/
theorem new_named_roundtrip [Inhabited C] [ToString C] :
    ∀ lower upper : C, lower ≤ upper →
      ((New lower CLOSED upper OPEN).Equal (ClosedOpen lower upper) = true ∧
        NewE lower CLOSED upper OPEN = ClosedOpenE lower upper) ∧
      ((New lower OPEN upper OPEN).Equal (Open lower upper) = true ∧
        NewE lower OPEN upper OPEN = OpenE lower upper) ∧
      ((New lower CLOSED upper CLOSED).Equal (Closed lower upper) = true ∧
        NewE lower CLOSED upper CLOSED = ClosedE lower upper) ∧
      ((New lower OPEN upper CLOSED).Equal (OpenClosed lower upper) = true ∧
        NewE lower OPEN upper CLOSED = OpenClosedE lower upper) := by
  intro l u _
  have hne : (CLOSED : BoundType) ≠ OPEN := by decide
  have hco : NewE l CLOSED u OPEN = ClosedOpenE l u := by
    simp [NewE, ClosedOpenE, hne]
  have ho : NewE l OPEN u OPEN = OpenE l u := by
    simp [NewE, OpenE]
  have hc : NewE l CLOSED u CLOSED = ClosedE l u := by
    simp [NewE, ClosedE, hne]
  have hoc : NewE l OPEN u CLOSED = OpenClosedE l u := by
    simp [NewE, OpenClosedE, hne]
  refine ⟨⟨?_, hco⟩, ⟨?_, ho⟩, ⟨?_, hc⟩, ⟨?_, hoc⟩⟩ <;>
    simp only [New, Open, Closed, ClosedOpen, OpenClosed, hco, ho, hc, hoc] <;>
    exact Range.equal_self _

/-- C7 witness: the round-trip at the concrete endpoints `1` and `7`. -/
theorem new_named_roundtrip_witness :
    (New (1:Int) CLOSED 7 OPEN).Equal (ClosedOpen 1 7) = true ∧
      NewE (1:Int) CLOSED 7 OPEN = ClosedOpenE 1 7 :=
  (new_named_roundtrip (C := Int) 1 7 (by decide)).1

end GRanges
